import Mathlib

/-!
# go-music-k8s: data-access layer and user-authentication service

A shallow embedding of `backend/internal/dao/gorm_dao.go` (the user methods of
`GormDAO`) and of `backend/internal/service/user_service.go`
(`ValidateUser`, `RegisterUser`), together with the theorems that settle the
claims made about them.

Conventions of the embedding.

* A Go `error` is `Option Error`; `none` is `nil`.
* A Go `*model.User` result is `Option User`; `none` is the nil pointer.
* A method that writes through its `*model.User` argument returns the record
  as it stands afterwards.
* The relational store is an explicit value of type `DB`, threaded through
  every call.  A statement sent to the store either executes on that value or
  is cut short by an error of the connection; which of the two happens is an
  input of the model (`Faults`), one entry per statement of the source.
* Go strings are modelled by `String`; the conversions `[]byte(s)` and
  `string(b)` are the identity on contents and are left out.
-/

namespace GoMusic

/-! ## Errors -/

/-- Error values. Go compares sentinel errors by identity, so every sentinel
of the two packages (and of the libraries they call) is a constructor of its
own; `store` stands for any other error of the driver or the connection and
`bcrypt` for any error of the hashing library. -/
inductive Error where
  /-- The sentinel `gorm.ErrRecordNotFound`. -/
  | ErrRecordNotFound
  /-- The sentinel `gorm.ErrMissingWhereClause`. -/
  | ErrMissingWhereClause
  /-- The sentinel `dao.ErrUserNotFound`. -/
  | daoErrUserNotFound
  /-- The sentinel `dao.ErrSongNotFound`. -/
  | daoErrSongNotFound
  /-- The sentinel `service.ErrUserNotFound`. -/
  | ErrUserNotFound
  /-- The sentinel `service.ErrUsernameOrEmailTaken`. -/
  | ErrUsernameOrEmailTaken
  /-- The sentinel `service.ErrInvalidCredentials`. -/
  | ErrInvalidCredentials
  /-- A violation of the named key constraint, reported by the store. -/
  | duplicateKey (constraint : String)
  /-- Any other error of the store (connectivity, timeouts, ...). -/
  | store (msg : String)
  /-- An error of the hashing library. -/
  | bcrypt (msg : String)
deriving DecidableEq, Repr

/-! ## Data model -/

/-- Modelled from the spec: the declaration of `model.User` is not among the
sources. The spec gives a user an identifier, a username, an email, a hashed
password and a nullable soft-delete timestamp; the source reads and writes
exactly the fields `ID`, `Username`, `Email`, `Password` and
`DeletedAt.Valid`. `DeletedAt = none` is `DeletedAt.Valid = false`; the
timestamp itself is a number. The playlists of a user live in a table of their
own and are not part of the row. -/
structure User where
  ID : Nat
  Username : String
  Email : String
  Password : String
  DeletedAt : Option Nat
deriving DecidableEq, Repr

/-- The zero value of `model.User`, what `var u model.User` declares. -/
def User.zero : User :=
  { ID := 0, Username := "", Email := "", Password := "", DeletedAt := none }

/-- A row is active when its soft-delete marker is not set. -/
def User.active (u : User) : Bool := u.DeletedAt.isNone

/-- The `users` table and the counter from which the store draws the
identifier of a row inserted without one. -/
structure DB where
  users : List User
  nextID : Nat
deriving DecidableEq, Repr

/-- The error, if any, with which the connection cuts short each statement that
the user methods of `GormDAO` send to the store. `none` lets the statement
execute. There is one entry per statement of the source. -/
structure Faults where
  createUserFirst : Option Error
  createUserDelete : Option Error
  createUserCreate : Option Error
  updateUserFirst : Option Error
  updateUserSave : Option Error
  findByUsernameFirst : Option Error
deriving DecidableEq, Repr

/-- No statement is cut short. -/
def Faults.none : Faults :=
  { createUserFirst := Option.none, createUserDelete := Option.none,
    createUserCreate := Option.none, updateUserFirst := Option.none,
    updateUserSave := Option.none, findByUsernameFirst := Option.none }

/-! ## The statements of the relational-mapping library -/

/-- Rows in the order of their primary key, as `ORDER BY id` returns them. -/
def orderByID (rows : List User) : List User :=
  rows.insertionSort (fun a b => a.ID ≤ b.ID)

/-- The rows a query ranges over: all of them after `Unscoped()`, the active
ones otherwise (`deleted_at IS NULL`). -/
def scope (unscoped : Bool) (r : User) : Bool := unscoped || r.active

/-- The statement `Where(cond).First(&dest)` on a zero-valued `dest`:
`SELECT * FROM users WHERE cond ORDER BY id LIMIT 1`. Returns the contents of
`dest` afterwards and `result.Error`. When no row matches, or the statement
fails, `dest` keeps its zero value. -/
def First (fault : Option Error) (db : DB) (unscoped : Bool) (cond : User → Bool) :
    User × Option Error :=
  match fault with
  | some e => (User.zero, some e)
  | Option.none =>
    match (orderByID (db.users.filter (fun r => cond r && scope unscoped r))).head? with
    | some r => (r, Option.none)
    | Option.none => (User.zero, some Error.ErrRecordNotFound)

/-- The statement `Unscoped().Delete(&value)`: `DELETE FROM users WHERE id = ?`
with the primary key of `value`. The library refuses a delete without a
condition, which is what a zero primary key gives. -/
def DeleteUnscoped (fault : Option Error) (db : DB) (value : User) : DB × Option Error :=
  match fault with
  | some e => (db, some e)
  | Option.none =>
    if value.ID = 0 then (db, some Error.ErrMissingWhereClause)
    else ({ db with users := db.users.filter (fun r => r.ID ≠ value.ID) }, Option.none)

/-- Modelled from the spec: the schema of `users` comes from the declaration of
`model.User`, which is not among the sources. The spec makes the identifier
unique (the primary key) and the username unique; `CreateUser` erases a
soft-deleted row "to free up the username", so the username constraint spans
soft-deleted rows as well.

The statement `Create(value)`: `INSERT INTO users ...`. A record without a
primary key gets the next identifier of the store, written back into `value`.
The insert is refused when the primary key or the username is already present
in the table; a refused or failed insert leaves the store as it was. -/
def Create (fault : Option Error) (db : DB) (value : User) : DB × User × Option Error :=
  match fault with
  | some e => (db, value, some e)
  | Option.none =>
    let id := if value.ID = 0 then db.nextID else value.ID
    if db.users.any (fun r => r.ID == id) then
      (db, value, some (Error.duplicateKey "users_pkey"))
    else if db.users.any (fun r => r.Username == value.Username) then
      (db, value, some (Error.duplicateKey "users_username_key"))
    else
      let row := { value with ID := id }
      ({ users := db.users ++ [row], nextID := max db.nextID (id + 1) }, row, Option.none)

/-- The statement `Save(&value)`. A record without a primary key is inserted
(`Create`). Otherwise all columns of the active row with that primary key are
overwritten (`UPDATE users SET ... WHERE id = ? AND deleted_at IS NULL`); the
username constraint of `Create` applies against the other rows. When no active
row has the key the library falls back to an insert that overwrites on a
primary-key conflict. -/
def Save (fault : Option Error) (db : DB) (value : User) : DB × User × Option Error :=
  if value.ID = 0 then Create fault db value
  else
    match fault with
    | some e => (db, value, some e)
    | Option.none =>
      if db.users.any (fun r => r.ID ≠ value.ID && r.Username == value.Username) then
        (db, value, some (Error.duplicateKey "users_username_key"))
      else if db.users.any (fun r => r.ID == value.ID && r.active) then
        let rows := db.users.map (fun r => if r.ID = value.ID ∧ r.active = true then value else r)
        ({ db with users := rows }, value, Option.none)
      else if db.users.any (fun r => r.ID == value.ID) then
        let rows := db.users.map (fun r => if r.ID = value.ID then value else r)
        ({ db with users := rows }, value, Option.none)
      else
        ({ users := db.users ++ [value], nextID := max db.nextID (value.ID + 1) },
          value, Option.none)

/-! ## `GormDAO`: the user methods -/

/-- `GormDAO.CreateUser`. Returns the store, the record behind the argument
pointer and the error. -/
def CreateUser (f : Faults) (db : DB) (user : User) : DB × User × Option Error :=
  let result := First f.createUserFirst db true (fun r => r.Username == user.Username)
  let existingUser := result.1
  if result.2 = Option.none ∧ existingUser.DeletedAt.isSome = true then
    match DeleteUnscoped f.createUserDelete db existingUser with
    | (db1, some err) => (db1, user, some err)
    | (db1, Option.none) => Create f.createUserCreate db1 user
  else if result.2 ≠ some Error.ErrRecordNotFound then
    (db, user, result.2)
  else
    Create f.createUserCreate db user

/-- `GormDAO.UpdateUser`. Returns the store and the error; the argument is only
read. -/
def UpdateUser (f : Faults) (db : DB) (user : User) : DB × Option Error :=
  let result := First f.updateUserFirst db false (fun r => r.ID == user.ID)
  if result.2 = some Error.ErrRecordNotFound then
    (db, some Error.daoErrUserNotFound)
  else
    let existingUser := result.1
    let existingUser :=
      if user.Username ≠ "" then { existingUser with Username := user.Username }
      else existingUser
    let existingUser :=
      if user.Password ≠ "" then { existingUser with Password := user.Password }
      else existingUser
    let saved := Save f.updateUserSave db existingUser
    (saved.1, saved.2.2)

/-- `GormDAO.FindByUsername`: the first active row with the username. The
pointer it returns is never nil: on a miss or a failure it points to a
zero-valued user. (The playlists that `Preload` attaches are not part of the
row.) -/
def FindByUsername (f : Faults) (db : DB) (username : String) : Option User × Option Error :=
  let result := First f.findByUsernameFirst db false (fun r => r.Username == username)
  (some result.1, result.2)

/-! ## The user-authentication service -/

/-- The two functions of `golang.org/x/crypto/bcrypt` that the service calls.
`GenerateFromPassword` draws a fresh salt at every call; the function here is
the one the library computes in the run under study. -/
structure Bcrypt where
  GenerateFromPassword : String → Nat → Except Error String
  CompareHashAndPassword : String → String → Option Error

/-- The constant `bcrypt.DefaultCost`. -/
def DefaultCost : Nat := 10

/-- Modelled from the spec: the interface `dao.MusicDAO` is not among the
sources. The service calls two of its methods on users, the lookup by username
and the creation; each may read and write the state `σ` behind the interface. -/
structure MusicDAO (σ : Type) where
  GetUserByUsername : σ → String → σ × Option User × Option Error
  CreateUser : σ → User → σ × User × Option Error

/-- `userService.GetUserByUsername`: hands the lookup to the data-access
layer. -/
def GetUserByUsername {σ : Type} (d : MusicDAO σ) (s : σ) (username : String) :
    σ × Option User × Option Error :=
  d.GetUserByUsername s username

/-- `userService.ValidateUser`. Returns the state behind the interface, the
identifier and the authenticated flag. (The log lines are left out.) -/
def ValidateUser {σ : Type} (d : MusicDAO σ) (bc : Bcrypt) (s : σ)
    (username password : String) : σ × Nat × Bool :=
  let r := d.GetUserByUsername s username
  match r.2.2, r.2.1 with
  | Option.none, some user =>
    match bc.CompareHashAndPassword user.Password password with
    | some _ => (r.1, 0, false)
    | Option.none => (r.1, user.ID, true)
  | _, _ => (r.1, 0, false)

/-- `userService.RegisterUser`. Returns the state behind the interface, the
record behind the argument pointer and the error. -/
def RegisterUser {σ : Type} (d : MusicDAO σ) (bc : Bcrypt) (s : σ) (user : User) :
    σ × User × Option Error :=
  let r := GetUserByUsername d s user.Username
  let existingUser := r.2.1
  if (match existingUser with
      | some existing => decide (user.Email = existing.Email)
      | Option.none => false) = true then
    (r.1, user, some Error.ErrUsernameOrEmailTaken)
  else
    match bc.GenerateFromPassword user.Password DefaultCost with
    | Except.error err => (r.1, user, some err)
    | Except.ok hashedPassword => d.CreateUser r.1 { user with Password := hashedPassword }

/-! ## Instances of the interface -/

/-- Modelled from the spec: the binding of `dao.MusicDAO` to `GormDAO` is not
among the sources. The lookup by username of the data-access layer is
`FindByUsername` (one active user by username, or a not-found error); it
leaves the store as it is. -/
def gormDAO (f : Faults) : MusicDAO DB :=
  { GetUserByUsername := fun db username => (db, FindByUsername f db username),
    CreateUser := fun db user => CreateUser f db user }

/-- A call made through the interface. -/
inductive DAOCall where
  | GetUserByUsername (username : String)
  | CreateUser (user : User)
deriving DecidableEq, Repr

/-- The same data-access object, with a log of the calls made through the
interface kept next to its state. -/
def MusicDAO.traced {σ : Type} (d : MusicDAO σ) : MusicDAO (σ × List DAOCall) :=
  { GetUserByUsername := fun s username =>
      let r := d.GetUserByUsername s.1 username
      ((r.1, s.2 ++ [DAOCall.GetUserByUsername username]), r.2),
    CreateUser := fun s user =>
      let r := d.CreateUser s.1 user
      ((r.1, s.2 ++ [DAOCall.CreateUser user]), r.2) }

/-- The same data-access object, with the error of its lookup replaced. -/
def MusicDAO.withLookupError {σ : Type} (d : MusicDAO σ) (e : Option Error) : MusicDAO σ :=
  { GetUserByUsername := fun s username =>
      let r := d.GetUserByUsername s username
      (r.1, r.2.1, e),
    CreateUser := d.CreateUser }

/-- A stand-in for the hashing library on which the service can be evaluated:
the hash of a password is the password behind a fixed header, and the
comparison accepts exactly the password that was hashed. -/
def toyBcrypt : Bcrypt :=
  { GenerateFromPassword := fun password _ => Except.ok ("$2a$10$" ++ password),
    CompareHashAndPassword := fun hash password =>
      if hash = "$2a$10$" ++ password then Option.none
      else some (Error.bcrypt "hashedPassword is not the hash of the given password") }

/-! ## Predicates on stores -/

/-- The primary key of `users`: identifiers are pairwise different, positive,
and below the counter from which new identifiers are drawn. -/
def DB.wellFormed (db : DB) : Prop :=
  (db.users.map User.ID).Nodup ∧ ∀ r ∈ db.users, 0 < r.ID ∧ r.ID < db.nextID

instance (db : DB) : Decidable db.wellFormed := by
  unfold DB.wellFormed; exact inferInstance

/-- No two active rows of the table carry the same username. -/
def DB.activeUnique (db : DB) : Prop :=
  db.users.Pairwise (fun a b => ¬ (a.active = true ∧ b.active = true ∧ a.Username = b.Username))

instance (db : DB) : Decidable db.activeUnique := by
  unfold DB.activeUnique; exact inferInstance

/-- The order of identifiers is total. -/
instance orderRel_total : IsTotal User (fun a b => a.ID ≤ b.ID) :=
  ⟨fun a b => Nat.le_total a.ID b.ID⟩

/-- The order of identifiers is transitive. -/
instance orderRel_trans : IsTrans User (fun a b => a.ID ≤ b.ID) :=
  ⟨fun _ _ _ hab hbc => Nat.le_trans hab hbc⟩

/-! ## Lemmas on the statements -/

theorem orderByID_perm (l : List User) : (orderByID l).Perm l :=
  List.perm_insertionSort _ l

theorem orderByID_sorted (l : List User) :
    (orderByID l).Sorted (fun a b => a.ID ≤ b.ID) :=
  List.sorted_insertionSort _ l

theorem orderByID_head_none (l : List User) (h : (orderByID l).head? = none) : l = [] := by
  have hp := orderByID_perm l
  cases hl : orderByID l with
  | nil => rw [hl] at hp; exact List.Perm.eq_nil hp.symm
  | cons a t => rw [hl] at h; simp at h

theorem orderByID_head_some (l : List User) (r : User) (h : (orderByID l).head? = some r) :
    r ∈ l ∧ ∀ x ∈ l, r.ID ≤ x.ID := by
  have hp := orderByID_perm l
  have hs := orderByID_sorted l
  cases hl : orderByID l with
  | nil => rw [hl] at h; simp at h
  | cons a t =>
    rw [hl] at h hp hs
    simp at h
    subst h
    refine ⟨hp.subset (List.mem_cons_self _ _), ?_⟩
    intro x hx
    have hx2 : x ∈ a :: t := hp.symm.subset hx
    rcases List.mem_cons.1 hx2 with rfl | hxt
    · exact Nat.le_refl _
    · exact List.rel_of_sorted_cons hs x hxt

/-- What `First` returns when the statement executes: either no row of the
scope satisfies the condition, and the result is the zero value with the
not-found error, or the result is the row of least identifier among those that
do, with no error. -/
theorem First_cases (db : DB) (unscoped : Bool) (cond : User → Bool) :
    (First none db unscoped cond = (User.zero, some Error.ErrRecordNotFound) ∧
      ∀ x ∈ db.users, ¬ (cond x = true ∧ scope unscoped x = true)) ∨
    (∃ r, First none db unscoped cond = (r, none) ∧ r ∈ db.users ∧ cond r = true ∧
      scope unscoped r = true ∧
      ∀ x ∈ db.users, cond x = true → scope unscoped x = true → r.ID ≤ x.ID) := by
  unfold First
  cases hh : (orderByID (db.users.filter (fun r => cond r && scope unscoped r))).head? with
  | none =>
    left
    refine ⟨rfl, ?_⟩
    have hnil := orderByID_head_none _ hh
    intro x hx hc
    have : x ∈ db.users.filter (fun r => cond r && scope unscoped r) := by
      simp [List.mem_filter, hx, hc.1, hc.2]
    rw [hnil] at this
    simp at this
  | some r =>
    right
    obtain ⟨hmem, hmin⟩ := orderByID_head_some _ r hh
    simp only [List.mem_filter, Bool.and_eq_true] at hmem hmin
    exact ⟨r, rfl, hmem.1, hmem.2.1, hmem.2.2, fun x hx hc hs => hmin x ⟨hx, hc, hs⟩⟩

theorem First_fault (e : Error) (db : DB) (unscoped : Bool) (cond : User → Bool) :
    First (some e) db unscoped cond = (User.zero, some e) := rfl

/-! ## `CreateUser` -/

theorem nodup_ID_inj {l : List User} (h : (l.map User.ID).Nodup) {a b : User}
    (ha : a ∈ l) (hb : b ∈ l) (hab : a.ID = b.ID) : a = b :=
  List.inj_on_of_nodup_map h ha hb hab

/-- When the lookup of `CreateUser` executes and its first row is active, the
method returns nil and leaves the store and the record as they were. -/
theorem CreateUser_first_active (f : Faults) (db : DB) (user r : User)
    (hf : First f.createUserFirst db true (fun x => x.Username == user.Username) = (r, none))
    (hr : r.DeletedAt = none) : CreateUser f db user = (db, user, none) := by
  unfold CreateUser
  simp [hf, hr]

/-- When the lookup of `CreateUser` executes and its first row is
soft-deleted, the method erases that row and inserts the record. -/
theorem CreateUser_first_deleted (f : Faults) (db : DB) (user r : User)
    (hf : First f.createUserFirst db true (fun x => x.Username == user.Username) = (r, none))
    (hr : r.DeletedAt ≠ none) :
    CreateUser f db user =
      match DeleteUnscoped f.createUserDelete db r with
      | (db1, some err) => (db1, user, some err)
      | (db1, none) => Create f.createUserCreate db1 user := by
  unfold CreateUser
  have : r.DeletedAt.isSome = true := by
    cases h : r.DeletedAt with
    | none => exact absurd h hr
    | some _ => rfl
  simp [hf, this]

theorem Create_users (fault : Option Error) (db : DB) (value : User) :
    ((Create fault db value).1 = db ∧ (Create fault db value).2.1 = value ∧
      (Create fault db value).2.2 ≠ none) ∨
    ((∀ x ∈ db.users, x.Username ≠ value.Username) ∧
      (∀ x ∈ db.users, x.ID ≠ (if value.ID = 0 then db.nextID else value.ID)) ∧
      Create fault db value =
        ({ users := db.users ++ [{ value with ID := if value.ID = 0 then db.nextID else value.ID }],
           nextID := max db.nextID ((if value.ID = 0 then db.nextID else value.ID) + 1) },
         { value with ID := if value.ID = 0 then db.nextID else value.ID }, none)) := by
  unfold Create
  cases fault with
  | some e => left; simp
  | none =>
    simp only
    by_cases h1 : db.users.any (fun r => r.ID == (if value.ID = 0 then db.nextID else value.ID)) = true
    · left; simp only [h1, if_true]; simp
    · by_cases h2 : db.users.any (fun r => r.Username == value.Username) = true
      · left; simp only [h1, h2, if_true]; simp
      · right
        refine ⟨?_, ?_, ?_⟩
        · intro x hx hxe
          apply h2
          simp only [List.any_eq_true, beq_iff_eq]
          exact ⟨x, hx, hxe⟩
        · intro x hx hxe
          apply h1
          simp only [List.any_eq_true, beq_iff_eq]
          exact ⟨x, hx, hxe⟩
        · simp only [h1, h2]; rfl

theorem DeleteUnscoped_users (fault : Option Error) (db : DB) (value : User) :
    DeleteUnscoped fault db value = (db, fault) ∧ fault ≠ none ∨
    DeleteUnscoped fault db value = (db, some Error.ErrMissingWhereClause) ∧ value.ID = 0 ∨
    DeleteUnscoped fault db value =
      ({ db with users := db.users.filter (fun r => r.ID ≠ value.ID) }, none) ∧
      fault = none ∧ value.ID ≠ 0 := by
  unfold DeleteUnscoped
  cases fault with
  | some e => left; simp
  | none =>
    right
    by_cases h : value.ID = 0
    · left; simp [h]
    · right; simp [h]

theorem Create_activeUnique (fault : Option Error) (db : DB) (value : User)
    (h : db.activeUnique) : (Create fault db value).1.activeUnique := by
  rcases Create_users fault db value with ⟨h1, _, _⟩ | ⟨hu, _, heq⟩
  · rw [h1]; exact h
  · rw [heq]
    unfold DB.activeUnique at *
    simp only
    rw [List.pairwise_append]
    refine ⟨h, List.pairwise_singleton _ _, ?_⟩
    intro a ha b hb
    simp only [List.mem_singleton] at hb
    subst hb
    intro hc
    exact hu a ha hc.2.2

theorem DeleteUnscoped_activeUnique (fault : Option Error) (db : DB) (value : User)
    (h : db.activeUnique) : (DeleteUnscoped fault db value).1.activeUnique := by
  rcases DeleteUnscoped_users fault db value with ⟨h1, _⟩ | ⟨h1, _⟩ | ⟨h1, _⟩
  · rw [h1]; exact h
  · rw [h1]; exact h
  · rw [h1]
    unfold DB.activeUnique at *
    exact List.Pairwise.sublist (List.filter_sublist _) h

theorem CreateUser_activeUnique (f : Faults) (db : DB) (user : User)
    (h : db.activeUnique) : (CreateUser f db user).1.activeUnique := by
  unfold CreateUser
  simp only
  split_ifs with h1 h2
  · have hd := DeleteUnscoped_activeUnique f.createUserDelete db
      (First f.createUserFirst db true (fun r => r.Username == user.Username)).1 h
    revert hd
    generalize DeleteUnscoped f.createUserDelete db
      (First f.createUserFirst db true (fun r => r.Username == user.Username)).1 = res
    intro hd
    rcases res with ⟨db1, _ | err⟩
    · exact Create_activeUnique _ _ _ hd
    · exact hd
  · exact h
  · exact Create_activeUnique _ _ _ h

/-- Claim C1, evaluated on the code. The store holds one active user `alice`
and a second `alice` is created: the lookup finds the active row, the branch
that returns the error of the lookup is taken, and that error is nil.
`CreateUser` reports success and has inserted nothing. -/
theorem CreateUser_active_conflict_returns_nil :
    CreateUser Faults.none
      { users := [{ ID := 1, Username := "alice", Email := "a@x.com", Password := "h1",
                    DeletedAt := none }],
        nextID := 2 }
      { ID := 0, Username := "alice", Email := "b@x.com", Password := "h2", DeletedAt := none }
    = ({ users := [{ ID := 1, Username := "alice", Email := "a@x.com", Password := "h1",
                     DeletedAt := none }],
         nextID := 2 },
       { ID := 0, Username := "alice", Email := "b@x.com", Password := "h2", DeletedAt := none },
       none) := by
  decide

/-- Claim C9. `CreateUser` preserves the username invariant: from a store in
which no two active users share a username it leads, whatever the input, the
failures of the connection and the result, to a store with the same property.
The row on which the method decides is the one of least identifier among all
rows, soft-deleted ones included, that carry the username of the input: when
that row is active the method stops with the store untouched, when it is
soft-deleted the method erases it and inserts. -/
theorem CreateUser_preserves_activeUnique (f : Faults) (db : DB) (user : User)
    (hinv : db.activeUnique) :
    (CreateUser f db user).1.activeUnique ∧
    ∀ r, First f.createUserFirst db true (fun x => x.Username == user.Username) = (r, none) →
      (r ∈ db.users ∧ r.Username = user.Username ∧
        ∀ y ∈ db.users, y.Username = user.Username → r.ID ≤ y.ID) ∧
      (r.DeletedAt = none → CreateUser f db user = (db, user, none)) ∧
      (r.DeletedAt ≠ none →
        CreateUser f db user =
          match DeleteUnscoped f.createUserDelete db r with
          | (db1, some err) => (db1, user, some err)
          | (db1, none) => Create f.createUserCreate db1 user) := by
  refine ⟨CreateUser_activeUnique f db user hinv, ?_⟩
  intro r hr
  refine ⟨?_, CreateUser_first_active f db user r hr, CreateUser_first_deleted f db user r hr⟩
  cases hf : f.createUserFirst with
  | some e => rw [hf, First_fault] at hr; cases hr
  | none =>
    rw [hf] at hr
    rcases First_cases db true (fun x => x.Username == user.Username) with ⟨h0, _⟩ | ⟨r2, h0, hm, hc, _, hmin⟩
    · rw [h0] at hr; cases hr
    · rw [h0] at hr
      cases hr
      refine ⟨hm, by simpa using hc, ?_⟩
      intro y hy hyu
      exact hmin y hy (by simpa using hyu) (by simp [scope])

/-- Claim C9 at a store with a soft-deleted `alice` before an active one. -/
theorem CreateUser_preserves_activeUnique_witness :
    (CreateUser Faults.none
      { users := [{ ID := 1, Username := "alice", Email := "a@x.com", Password := "h1",
                    DeletedAt := some 7 },
                  { ID := 2, Username := "alice", Email := "c@x.com", Password := "h3",
                    DeletedAt := none }],
        nextID := 3 }
      { ID := 0, Username := "alice", Email := "b@x.com", Password := "h2",
        DeletedAt := none }).1.activeUnique :=
  (CreateUser_preserves_activeUnique Faults.none _ _ (by decide)).1

/-- Claim C2, refuted on the code. The only row with username `alice` is
soft-deleted and the input record with that username carries a deletion marker
of its own. `CreateUser` erases the old row, inserts the record as it is given
and returns nil: the only row with username `alice` is then the new one, and it
is soft-deleted, not active. -/
theorem CreateUser_reclaim_keeps_deletion_marker :
    CreateUser Faults.none
      { users := [{ ID := 1, Username := "alice", Email := "a@x.com", Password := "h1",
                    DeletedAt := some 7 }],
        nextID := 2 }
      { ID := 0, Username := "alice", Email := "c@x.com", Password := "h3",
        DeletedAt := some 9 }
    = ({ users := [{ ID := 2, Username := "alice", Email := "c@x.com", Password := "h3",
                     DeletedAt := some 9 }],
         nextID := 3 },
       { ID := 2, Username := "alice", Email := "c@x.com", Password := "h3",
         DeletedAt := some 9 },
       none) ∧
    (CreateUser Faults.none
      { users := [{ ID := 1, Username := "alice", Email := "a@x.com", Password := "h1",
                    DeletedAt := some 7 }],
        nextID := 2 }
      { ID := 0, Username := "alice", Email := "c@x.com", Password := "h3",
        DeletedAt := some 9 }).1.users.filter
        (fun r => r.Username == "alice" && r.active) = [] := by
  decide

/-- Claim C2, amended. Reclaiming a soft-deleted username. In a well-formed store whose
only row with username `u` is the soft-deleted row `old`, `CreateUser` of a
record with username `u` and no deletion marker, with no failure of the store
(no statement fails and the primary key of the record, if it brings one, is
free), returns nil. The row `old` is erased and the record is appended under
its identifier: `old` is absent from the table, a lookup by username that
includes soft-deleted rows returns the new row, the new row is the only one
with username `u` and is active, and the rows with other usernames are the
ones of before. Unless the record brings the identifier of `old` as its own
primary key, a lookup by that identifier that includes soft-deleted rows finds
nothing. -/
theorem CreateUser_reclaims_soft_deleted (db : DB) (user old : User) (u : String)
    (hwf : db.wellFormed)
    (hold : old ∈ db.users) (holdu : old.Username = u) (holdd : old.DeletedAt ≠ none)
    (honly : ∀ r ∈ db.users, r.Username = u → r = old)
    (hu : user.Username = u) (hact : user.DeletedAt = none)
    (hkey : user.ID = 0 ∨ ∀ r ∈ db.users, r ≠ old → r.ID ≠ user.ID) :
    (CreateUser Faults.none db user).2.2 = none ∧
    (CreateUser Faults.none db user).2.1 =
      { user with ID := if user.ID = 0 then db.nextID else user.ID } ∧
    (CreateUser Faults.none db user).1.users =
      db.users.filter (fun r => r ≠ old) ++
        [{ user with ID := if user.ID = 0 then db.nextID else user.ID }] ∧
    old ∉ (CreateUser Faults.none db user).1.users ∧
    First none (CreateUser Faults.none db user).1 true (fun r => r.Username == u) =
      ({ user with ID := if user.ID = 0 then db.nextID else user.ID }, none) ∧
    (CreateUser Faults.none db user).1.users.filter (fun r => r.Username == u) =
      [{ user with ID := if user.ID = 0 then db.nextID else user.ID }] ∧
    ({ user with ID := if user.ID = 0 then db.nextID else user.ID } : User).active = true ∧
    (∀ r, r.Username ≠ u → (r ∈ (CreateUser Faults.none db user).1.users ↔ r ∈ db.users)) ∧
    (user.ID ≠ old.ID →
      First none (CreateUser Faults.none db user).1 true (fun r => r.ID == old.ID) =
        (User.zero, some Error.ErrRecordNotFound)) := by
  obtain ⟨hnd, hpos⟩ := hwf
  -- the lookup returns the soft-deleted row
  have hfirst : First none db true (fun x => x.Username == user.Username) = (old, none) := by
    rcases First_cases db true (fun x => x.Username == user.Username) with ⟨_, h0⟩ | ⟨r, h0, hm, hc, _, _⟩
    · exact absurd ⟨by simp [holdu, hu], by simp [scope]⟩ (h0 old hold)
    · have : r = old := honly r hm (by simpa [hu] using hc)
      rw [h0, this]
  have hcu := CreateUser_first_deleted Faults.none db user old hfirst holdd
  -- the delete erases it
  have hidpos : old.ID ≠ 0 := Nat.pos_iff_ne_zero.1 (hpos old hold).1
  have hfilter : db.users.filter (fun r => r.ID ≠ old.ID) = db.users.filter (fun r => r ≠ old) := by
    apply List.filter_congr
    intro x hx
    have : x.ID = old.ID ↔ x = old :=
      ⟨fun h => nodup_ID_inj hnd hx hold h, fun h => by rw [h]⟩
    simp [this]
  have hdel : DeleteUnscoped Faults.none.createUserDelete db old =
      ({ db with users := db.users.filter (fun r => r ≠ old) }, none) := by
    rcases DeleteUnscoped_users Faults.none.createUserDelete db old with ⟨_, h⟩ | ⟨_, h⟩ | ⟨h, _⟩
    · exact absurd rfl h
    · exact absurd h hidpos
    · rw [h, hfilter]
  rw [hdel] at hcu
  simp only at hcu
  -- the insert goes through
  set row : User := { user with ID := if user.ID = 0 then db.nextID else user.ID } with hrow
  have hrest : ∀ x ∈ db.users.filter (fun r => r ≠ old), x ∈ db.users ∧ x ≠ old := by
    intro x hx
    simpa [List.mem_filter] using hx
  have hcreate : Create Faults.none.createUserCreate
      { db with users := db.users.filter (fun r => r ≠ old) } user =
      ({ users := db.users.filter (fun r => r ≠ old) ++ [row],
         nextID := max db.nextID ((if user.ID = 0 then db.nextID else user.ID) + 1) },
       row, none) := by
    have hc : Create Faults.none.createUserCreate
        { db with users := db.users.filter (fun r => r ≠ old) } user
        = Create none { db with users := db.users.filter (fun r => r ≠ old) } user := rfl
    rw [hc]
    unfold Create
    have h1 : (db.users.filter (fun r => r ≠ old)).any
        (fun r => r.ID == (if user.ID = 0 then db.nextID else user.ID)) = false := by
      rw [List.any_eq_false]
      intro x hx
      obtain ⟨hxm, hxo⟩ := hrest x hx
      simp only [beq_iff_eq]
      rcases hkey with h0 | hk
      · rw [if_pos h0]; exact Nat.ne_of_lt (hpos x hxm).2
      · by_cases h0 : user.ID = 0
        · rw [if_pos h0]; exact Nat.ne_of_lt (hpos x hxm).2
        · rw [if_neg h0]; exact hk x hxm hxo
    have h2 : (db.users.filter (fun r => r ≠ old)).any
        (fun r => r.Username == user.Username) = false := by
      rw [List.any_eq_false]
      intro x hx
      obtain ⟨hxm, hxo⟩ := hrest x hx
      simp only [beq_iff_eq]
      intro hxu
      exact hxo (honly x hxm (by rw [hxu, hu]))
    simp only [h1, h2]
    rfl
  rw [hcreate] at hcu
  rw [hcu]
  have hne : old ≠ row := by
    intro h
    apply holdd
    rw [h]
    exact hact
  have hfu : (db.users.filter (fun r => r ≠ old)).filter (fun r => r.Username == u) = [] := by
    rw [List.filter_eq_nil_iff]
    intro x hx
    obtain ⟨hxm, hxo⟩ := hrest x hx
    simp only [beq_iff_eq]
    intro hxu
    exact hxo (honly x hxm hxu)
  have hrowu : row.Username = u := hu
  have hfilt : (db.users.filter (fun r => r ≠ old) ++ [row]).filter (fun r => r.Username == u)
      = [row] := by
    rw [List.filter_append, hfu]
    simp [hrow, hu]
  refine ⟨rfl, rfl, rfl, ?_, ?_, hfilt, ?_, ?_, ?_⟩
  · simp only [List.mem_append, List.mem_filter, List.mem_singleton]
    rintro (⟨_, h⟩ | h)
    · simp at h
    · exact hne h
  · unfold First
    simp only
    have : (fun r : User => (r.Username == u) && scope true r) = (fun r => r.Username == u) := by
      funext r; simp [scope]
    rw [this, hfilt]
    rfl
  · simp [User.active, hrow, hact]
  · intro r hr
    simp only [List.mem_append, List.mem_filter, List.mem_singleton]
    constructor
    · rintro (⟨h, _⟩ | h)
      · exact h
      · exact absurd (h ▸ hrowu) hr
    · intro h
      left
      refine ⟨h, ?_⟩
      simp only [decide_eq_true_eq]
      intro he
      exact hr (he ▸ holdu)
  · intro hne2
    rcases First_cases
        { users := db.users.filter (fun r => r ≠ old) ++ [row],
          nextID := max db.nextID ((if user.ID = 0 then db.nextID else user.ID) + 1) }
        true (fun r => r.ID == old.ID) with ⟨h0, _⟩ | ⟨r, _, hm, hc, _⟩
    · exact h0
    · exfalso
      have hrid : r.ID = old.ID := by simpa using hc
      simp only [List.mem_append, List.mem_singleton] at hm
      rcases hm with hm | hm
      · obtain ⟨hxm, hxo⟩ := hrest r hm
        exact hxo (nodup_ID_inj hnd hxm hold hrid)
      · rw [hm, hrow] at hrid
        simp only at hrid
        by_cases h0 : user.ID = 0
        · rw [if_pos h0] at hrid
          exact Nat.ne_of_lt (hpos old hold).2 hrid.symm
        · rw [if_neg h0] at hrid
          exact hne2 hrid

/-- Claim C2 as amended, at a store with a soft-deleted `alice` and an active
`bob`. -/
theorem CreateUser_reclaims_soft_deleted_witness :
    (CreateUser Faults.none
      { users := [{ ID := 1, Username := "alice", Email := "a@x.com", Password := "h1",
                    DeletedAt := some 7 },
                  { ID := 2, Username := "bob", Email := "b@x.com", Password := "h2",
                    DeletedAt := none }],
        nextID := 3 }
      { ID := 0, Username := "alice", Email := "c@x.com", Password := "h3",
        DeletedAt := none }).1.users =
      [{ ID := 2, Username := "bob", Email := "b@x.com", Password := "h2", DeletedAt := none },
       { ID := 3, Username := "alice", Email := "c@x.com", Password := "h3",
         DeletedAt := none }] :=
  (CreateUser_reclaims_soft_deleted
    { users := [{ ID := 1, Username := "alice", Email := "a@x.com", Password := "h1",
                  DeletedAt := some 7 },
                { ID := 2, Username := "bob", Email := "b@x.com", Password := "h2",
                  DeletedAt := none }],
      nextID := 3 }
    { ID := 0, Username := "alice", Email := "c@x.com", Password := "h3", DeletedAt := none }
    { ID := 1, Username := "alice", Email := "a@x.com", Password := "h1", DeletedAt := some 7 }
    "alice" (by decide) (by decide) (by decide) (by decide) (by decide) (by decide) (by decide)
    (by decide)).2.2.1

/-! ## `UpdateUser` -/

/-- A successful `Save` of a record whose primary key is that of an active row
overwrites the active rows with that key and nothing else. -/
theorem Save_overwrites (fault : Option Error) (db : DB) (value r : User)
    (hid : value.ID ≠ 0) (hr : r ∈ db.users) (hrid : r.ID = value.ID) (hract : r.active = true)
    (hok : (Save fault db value).2.2 = none) :
    (Save fault db value).1 =
      { users := db.users.map (fun x => if x.ID = value.ID ∧ x.active = true then value else x),
        nextID := db.nextID } := by
  unfold Save at hok ⊢
  rw [if_neg hid] at hok ⊢
  cases fault with
  | some e => simp at hok
  | none =>
    simp only at hok ⊢
    by_cases h1 : db.users.any (fun r => r.ID ≠ value.ID && r.Username == value.Username) = true
    · rw [if_pos h1] at hok; simp at hok
    · rw [if_neg h1]
      have h2 : db.users.any (fun r => r.ID == value.ID && r.active) = true := by
        rw [List.any_eq_true]
        exact ⟨r, hr, by simp [hrid, hract]⟩
      rw [if_pos h2]

/-- Claim C6, evaluated on the code. The store holds the active users `alice`
(identifier 1) and `bob`; the lookup of `UpdateUser` fails with an error of the
store that is not the not-found error. The method tests the lookup for
not-found only, so it goes on with the zero-valued record, writes the username
and the password of the input into it and saves it: the store inserts it as a
new row and the method returns nil. The row with identifier 1 keeps its
username and its password, and the table has a row more. -/
theorem UpdateUser_lookup_error_inserts_row :
    UpdateUser
      { createUserFirst := none, createUserDelete := none, createUserCreate := none,
        updateUserFirst := some (Error.store "connection refused"), updateUserSave := none,
        findByUsernameFirst := none }
      { users := [{ ID := 1, Username := "alice", Email := "a@x.com", Password := "h1",
                    DeletedAt := none },
                  { ID := 2, Username := "bob", Email := "b@x.com", Password := "h2",
                    DeletedAt := none }],
        nextID := 3 }
      { ID := 1, Username := "mallory", Email := "", Password := "pw", DeletedAt := none }
    = ({ users := [{ ID := 1, Username := "alice", Email := "a@x.com", Password := "h1",
                     DeletedAt := none },
                   { ID := 2, Username := "bob", Email := "b@x.com", Password := "h2",
                     DeletedAt := none },
                   { ID := 3, Username := "mallory", Email := "", Password := "pw",
                     DeletedAt := none }],
         nextID := 4 },
       none) := by
  decide

/-- The frame of `UpdateUser` on the runs whose lookup executes. In a well-formed store that contains
the active row `r`, a successful `UpdateUser` of a record with the identifier
of `r` (the lookup raises no error of the store and the method returns nil)
replaces `r` by the row that has the username of the input if that is not
empty and the one of `r` otherwise, the password of the input if that is not
empty and the one of `r` otherwise, and the identifier, the email and the
deletion marker of `r`, whatever email the input carries. Every other row, the
order of the rows and the identifier counter stay as they were. -/
theorem UpdateUser_frame (f : Faults) (db : DB) (user r : User)
    (hwf : db.wellFormed) (hr : r ∈ db.users) (hact : r.DeletedAt = none)
    (hid : user.ID = r.ID) (hlookup : f.updateUserFirst = none)
    (hok : (UpdateUser f db user).2 = none) :
    (UpdateUser f db user).1 =
      { users := db.users.map (fun x =>
          if x = r then
            { ID := r.ID,
              Username := if user.Username ≠ "" then user.Username else r.Username,
              Email := r.Email,
              Password := if user.Password ≠ "" then user.Password else r.Password,
              DeletedAt := r.DeletedAt }
          else x),
        nextID := db.nextID } := by
  obtain ⟨hnd, hpos⟩ := hwf
  have hfirst : First none db false (fun x => x.ID == user.ID) = (r, none) := by
    rcases First_cases db false (fun x => x.ID == user.ID) with ⟨_, h0⟩ | ⟨r2, h0, hm, hc, _, _⟩
    · exact absurd ⟨by simp [hid], by simp [scope, User.active, hact]⟩ (h0 r hr)
    · have : r2 = r := nodup_ID_inj hnd hm hr (by simpa [hid] using hc)
      rw [h0, this]
  have hmerge :
      (if user.Password ≠ "" then
          { (if user.Username ≠ "" then { r with Username := user.Username } else r) with
            Password := user.Password }
        else (if user.Username ≠ "" then { r with Username := user.Username } else r)) =
      ({ ID := r.ID,
         Username := if user.Username ≠ "" then user.Username else r.Username,
         Email := r.Email,
         Password := if user.Password ≠ "" then user.Password else r.Password,
         DeletedAt := r.DeletedAt } : User) := by
    split_ifs <;> rfl
  unfold UpdateUser at hok ⊢
  rw [hlookup, hfirst] at hok ⊢
  simp only [reduceCtorEq, if_false] at hok ⊢
  rw [hmerge] at hok ⊢
  have hidpos : r.ID ≠ 0 := Nat.pos_iff_ne_zero.1 (hpos r hr).1
  have hsave := Save_overwrites f.updateUserSave db
    { ID := r.ID,
      Username := if user.Username ≠ "" then user.Username else r.Username,
      Email := r.Email,
      Password := if user.Password ≠ "" then user.Password else r.Password,
      DeletedAt := r.DeletedAt } r hidpos hr rfl (by simp [User.active, hact]) hok
  rw [hsave]
  congr 1
  apply List.map_congr_left
  intro x hx
  have : (x.ID = r.ID ∧ x.active = true) ↔ x = r := by
    constructor
    · intro h; exact nodup_ID_inj hnd hx hr h.1
    · intro h; rw [h]; exact ⟨rfl, by simp [User.active, hact]⟩
  simp only [this]

/-- The frame of `UpdateUser` at a store with `alice` and `bob`: `alice` gets a new password;
the email and the username that the input carries, an other email and an empty
username, leave those of the row as they were. -/
theorem UpdateUser_frame_witness :
    (UpdateUser Faults.none
      { users := [{ ID := 1, Username := "alice", Email := "a@x.com", Password := "h1",
                    DeletedAt := none },
                  { ID := 2, Username := "bob", Email := "b@x.com", Password := "h2",
                    DeletedAt := none }],
        nextID := 3 }
      { ID := 1, Username := "", Email := "new@x.com", Password := "h9",
        DeletedAt := none }).1 =
      { users := [{ ID := 1, Username := "alice", Email := "a@x.com", Password := "h9",
                    DeletedAt := none },
                  { ID := 2, Username := "bob", Email := "b@x.com", Password := "h2",
                    DeletedAt := none }],
        nextID := 3 } :=
  (UpdateUser_frame Faults.none
    { users := [{ ID := 1, Username := "alice", Email := "a@x.com", Password := "h1",
                  DeletedAt := none },
                { ID := 2, Username := "bob", Email := "b@x.com", Password := "h2",
                  DeletedAt := none }],
      nextID := 3 }
    { ID := 1, Username := "", Email := "new@x.com", Password := "h9", DeletedAt := none }
    { ID := 1, Username := "alice", Email := "a@x.com", Password := "h1", DeletedAt := none }
    (by decide) (by decide) (by decide) (by decide) (by decide) (by decide)).trans (by decide)

/-! ## The lookup by username -/

/-- What `FindByUsername` returns when its statement executes: a pointer to a
zero-valued user with the not-found error when no active row carries the
username, and otherwise the active row of least identifier that does, with no
error. -/
theorem FindByUsername_cases (f : Faults) (db : DB) (username : String)
    (hf : f.findByUsernameFirst = none) :
    (FindByUsername f db username = (some User.zero, some Error.ErrRecordNotFound) ∧
      ∀ x ∈ db.users, ¬ (x.Username = username ∧ x.active = true)) ∨
    (∃ r, FindByUsername f db username = (some r, none) ∧ r ∈ db.users ∧
      r.Username = username ∧ r.active = true) := by
  unfold FindByUsername
  rw [hf]
  rcases First_cases db false (fun x => x.Username == username) with ⟨h0, hn⟩ | ⟨r, h0, hm, hc, hs, _⟩
  · left
    rw [h0]
    refine ⟨rfl, ?_⟩
    intro x hx hc
    exact hn x hx ⟨by simp [hc.1], by simp [scope, hc.2]⟩
  · right
    rw [h0]
    exact ⟨r, rfl, hm, by simpa using hc, by simpa [scope] using hs⟩

/-! ## `ValidateUser` -/

/-- Claim C3. `ValidateUser` returns the identifier of the looked-up user and
`true` when the lookup returns a user without error and the hash comparison
accepts the password against the stored hash of that user; in every other case
it returns `(0, false)`. So the flag is `true` exactly in the first case. Over
`GormDAO` the user that is returned is an active row of the store with the
given username. -/
theorem ValidateUser_spec {σ : Type} (d : MusicDAO σ) (bc : Bcrypt) (s : σ)
    (username password : String) :
    (∀ user, (d.GetUserByUsername s username).2 = (some user, none) →
      bc.CompareHashAndPassword user.Password password = none →
      (ValidateUser d bc s username password).2 = (user.ID, true)) ∧
    ((¬ ∃ user, (d.GetUserByUsername s username).2 = (some user, none) ∧
        bc.CompareHashAndPassword user.Password password = none) →
      (ValidateUser d bc s username password).2 = (0, false)) ∧
    ((ValidateUser d bc s username password).2.2 = true ↔
      ∃ user, (d.GetUserByUsername s username).2 = (some user, none) ∧
        bc.CompareHashAndPassword user.Password password = none) ∧
    (∀ (f : Faults) (db : DB),
      (ValidateUser (gormDAO f) bc db username password).2.2 = true →
      ∃ r ∈ db.users, r.active = true ∧ r.Username = username ∧
        bc.CompareHashAndPassword r.Password password = none ∧
        (ValidateUser (gormDAO f) bc db username password).2 = (r.ID, true)) := by
  have key : ∀ {τ : Type} (d : MusicDAO τ) (s : τ),
      (∃ user, (d.GetUserByUsername s username).2 = (some user, none) ∧
        bc.CompareHashAndPassword user.Password password = none ∧
        (ValidateUser d bc s username password).2 = (user.ID, true)) ∨
      ((¬ ∃ user, (d.GetUserByUsername s username).2 = (some user, none) ∧
        bc.CompareHashAndPassword user.Password password = none) ∧
        (ValidateUser d bc s username password).2 = (0, false)) := by
    intro τ d s
    unfold ValidateUser
    rcases hr : d.GetUserByUsername s username with ⟨s1, ou, oe⟩
    cases ou with
    | none => right; simp
    | some user =>
      cases oe with
      | some e => right; simp
      | none =>
        cases hc : bc.CompareHashAndPassword user.Password password with
        | none => left; exact ⟨user, rfl, hc, by simp [hc]⟩
        | some e => right; simp [hc]
  refine ⟨?_, ?_, ?_, ?_⟩
  · intro user hu hc
    rcases key d s with ⟨u2, h1, _, h3⟩ | ⟨hn, _⟩
    · rw [hu] at h1
      cases h1
      exact h3
    · exact absurd ⟨user, hu, hc⟩ hn
  · intro hn
    rcases key d s with ⟨u2, h1, h2, _⟩ | ⟨_, h⟩
    · exact absurd ⟨u2, h1, h2⟩ hn
    · exact h
  · rcases key d s with ⟨u2, h1, h2, h3⟩ | ⟨hn, h⟩
    · rw [h3]; simp only [true_iff]; exact ⟨u2, h1, h2⟩
    · rw [h]; simp only [Bool.false_eq_true, false_iff]; exact hn
  · intro f db ht
    rcases key (gormDAO f) db with ⟨u2, h1, h2, h3⟩ | ⟨_, h⟩
    · have hfind : FindByUsername f db username = (some u2, none) := h1
      have hfault : f.findByUsernameFirst = none := by
        cases hff : f.findByUsernameFirst with
        | none => rfl
        | some e =>
          unfold FindByUsername at hfind
          rw [hff, First_fault] at hfind
          cases hfind
      rcases FindByUsername_cases f db username hfault with ⟨h0, _⟩ | ⟨r, h0, hm, hu, ha⟩
      · rw [h0] at hfind; cases hfind
      · rw [h0] at hfind
        cases hfind
        exact ⟨_, hm, ha, hu, h2, h3⟩
    · rw [h] at ht; cases ht

/-- Claim C3 at a store with `alice`: the right password gives her identifier,
an other one gives `(0, false)`. -/
theorem ValidateUser_spec_witness :
    (ValidateUser (gormDAO Faults.none) toyBcrypt
      { users := [{ ID := 4, Username := "alice", Email := "a@x.com",
                    Password := "$2a$10$secret", DeletedAt := none }],
        nextID := 5 } "alice" "secret").2 = (4, true) ∧
    (ValidateUser (gormDAO Faults.none) toyBcrypt
      { users := [{ ID := 4, Username := "alice", Email := "a@x.com",
                    Password := "$2a$10$secret", DeletedAt := none }],
        nextID := 5 } "alice" "wrong").2 = (0, false) :=
  ⟨(ValidateUser_spec (gormDAO Faults.none) toyBcrypt
      { users := [{ ID := 4, Username := "alice", Email := "a@x.com",
                    Password := "$2a$10$secret", DeletedAt := none }],
        nextID := 5 } "alice" "secret").1
      { ID := 4, Username := "alice", Email := "a@x.com", Password := "$2a$10$secret",
        DeletedAt := none } (by decide) (by decide),
   (ValidateUser_spec (gormDAO Faults.none) toyBcrypt
      { users := [{ ID := 4, Username := "alice", Email := "a@x.com",
                    Password := "$2a$10$secret", DeletedAt := none }],
        nextID := 5 } "alice" "wrong").2.1 (by
      rintro ⟨user, h1, h2⟩
      have hl : ((gormDAO Faults.none).GetUserByUsername
          { users := [{ ID := 4, Username := "alice", Email := "a@x.com",
                        Password := "$2a$10$secret", DeletedAt := none }],
            nextID := 5 } "alice").2 =
          (some { ID := 4, Username := "alice", Email := "a@x.com",
                  Password := "$2a$10$secret", DeletedAt := none }, none) := by decide
      rw [hl] at h1
      cases h1
      revert h2
      decide)⟩

/-! ## `RegisterUser` -/

/-- The three ways through `RegisterUser`, with the calls it makes through the
interface on each: the lookup returns a user with the email of the input and
the method stops with the taken error; hashing fails and the method stops with
that error; or the record with the hash in place of the password goes to
`CreateUser`, whose result is the result of the method. -/
theorem RegisterUser_cases {σ : Type} (d : MusicDAO σ) (bc : Bcrypt) (s : σ) (user : User) :
    ((∃ existing, (d.GetUserByUsername s user.Username).2.1 = some existing ∧
        user.Email = existing.Email) ∧
      RegisterUser d bc s user =
        ((d.GetUserByUsername s user.Username).1, user, some Error.ErrUsernameOrEmailTaken) ∧
      (RegisterUser d.traced bc (s, []) user).1.2 =
        [DAOCall.GetUserByUsername user.Username]) ∨
    ((¬ ∃ existing, (d.GetUserByUsername s user.Username).2.1 = some existing ∧
        user.Email = existing.Email) ∧
      ∃ err, bc.GenerateFromPassword user.Password DefaultCost = Except.error err ∧
        RegisterUser d bc s user = ((d.GetUserByUsername s user.Username).1, user, some err) ∧
        (RegisterUser d.traced bc (s, []) user).1.2 =
          [DAOCall.GetUserByUsername user.Username]) ∨
    ((¬ ∃ existing, (d.GetUserByUsername s user.Username).2.1 = some existing ∧
        user.Email = existing.Email) ∧
      ∃ h, bc.GenerateFromPassword user.Password DefaultCost = Except.ok h ∧
        RegisterUser d bc s user =
          d.CreateUser (d.GetUserByUsername s user.Username).1 { user with Password := h } ∧
        (RegisterUser d.traced bc (s, []) user).1.2 =
          [DAOCall.GetUserByUsername user.Username,
           DAOCall.CreateUser { user with Password := h }]) := by
  have hb : ∀ ou : Option User,
      (match ou with
        | some existing => decide (user.Email = existing.Email)
        | none => false) = true ↔
      ∃ existing, ou = some existing ∧ user.Email = existing.Email := by
    intro ou
    cases ou <;> simp
  by_cases ht : ∃ existing, (d.GetUserByUsername s user.Username).2.1 = some existing ∧
      user.Email = existing.Email
  · left
    have hcond := (hb _).2 ht
    refine ⟨ht, ?_, ?_⟩
    · simp only [RegisterUser, GetUserByUsername, hcond, if_true]
    · simp only [RegisterUser, GetUserByUsername, MusicDAO.traced, hcond, if_true,
        List.nil_append]
  · right
    have hcond : (match (d.GetUserByUsername s user.Username).2.1 with
        | some existing => decide (user.Email = existing.Email)
        | none => false) = false := by
      rw [← Bool.not_eq_true]
      exact fun h => ht ((hb _).1 h)
    cases hg : bc.GenerateFromPassword user.Password DefaultCost with
    | error err =>
      left
      refine ⟨ht, err, rfl, ?_, ?_⟩
      · simp only [RegisterUser, GetUserByUsername, hcond, Bool.false_eq_true, if_false, hg]
      · simp only [RegisterUser, GetUserByUsername, MusicDAO.traced, hcond, Bool.false_eq_true,
          if_false, hg, List.nil_append]
    | ok h =>
      right
      refine ⟨ht, h, rfl, ?_, ?_⟩
      · simp only [RegisterUser, GetUserByUsername, hcond, Bool.false_eq_true, if_false, hg]
      · simp only [RegisterUser, GetUserByUsername, MusicDAO.traced, hcond, Bool.false_eq_true,
          if_false, hg, List.nil_append, List.singleton_append, List.cons_append]

theorem Create_rows (fault : Option Error) (db : DB) (value row : User)
    (h : row ∈ (Create fault db value).1.users) :
    row ∈ db.users ∨ row = { value with ID := if value.ID = 0 then db.nextID else value.ID } := by
  rcases Create_users fault db value with ⟨h1, _, _⟩ | ⟨_, _, heq⟩
  · rw [h1] at h; exact Or.inl h
  · rw [heq] at h
    simp only [List.mem_append, List.mem_singleton] at h
    exact h

theorem DeleteUnscoped_rows (fault : Option Error) (db : DB) (value row : User)
    (h : row ∈ (DeleteUnscoped fault db value).1.users) : row ∈ db.users := by
  rcases DeleteUnscoped_users fault db value with ⟨h1, _⟩ | ⟨h1, _⟩ | ⟨h1, _⟩
  · rw [h1] at h; exact h
  · rw [h1] at h; exact h
  · rw [h1] at h
    exact (List.mem_filter.1 h).1

/-- A row of the table after `CreateUser` is a row of the table before, or the
record of the call under the identifier the store gave it. -/
theorem CreateUser_rows (f : Faults) (db : DB) (user row : User)
    (h : row ∈ (CreateUser f db user).1.users) :
    row ∈ db.users ∨ ∃ id, row = { user with ID := id } := by
  unfold CreateUser at h
  simp only at h
  split_ifs at h with h1 h2
  · have hd := DeleteUnscoped_rows f.createUserDelete db
      (First f.createUserFirst db true (fun r => r.Username == user.Username)).1
    revert h hd
    generalize DeleteUnscoped f.createUserDelete db
      (First f.createUserFirst db true (fun r => r.Username == user.Username)).1 = res
    intro h hd
    rcases res with ⟨db1, _ | err⟩
    · rcases Create_rows _ _ _ _ h with h3 | h3
      · exact Or.inl (hd row h3)
      · exact Or.inr ⟨_, h3⟩
    · exact Or.inl (hd row h)
  · exact Or.inl h
  · rcases Create_rows _ _ _ _ h with h3 | h3
    · exact Or.inl h3
    · exact Or.inr ⟨_, h3⟩

/-- Claim C4. Whenever `RegisterUser` calls `CreateUser`, the record it hands
over is the input with the output of the hash of its password in the password
field; there is at most that one call. With a hash that does not return its
own input, the password of that record differs from the plaintext. Over
`GormDAO`, every row that `RegisterUser` adds to the table carries that hash
and not the plaintext. -/
theorem RegisterUser_hands_hash {σ : Type} (d : MusicDAO σ) (bc : Bcrypt) (s : σ) (user : User)
    (hone : ∀ h, bc.GenerateFromPassword user.Password DefaultCost = Except.ok h →
      h ≠ user.Password) :
    (∀ record, DAOCall.CreateUser record ∈ (RegisterUser d.traced bc (s, []) user).1.2 →
      ∃ h, bc.GenerateFromPassword user.Password DefaultCost = Except.ok h ∧
        record = { user with Password := h } ∧ record.Password ≠ user.Password ∧
        (RegisterUser d.traced bc (s, []) user).1.2 =
          [DAOCall.GetUserByUsername user.Username, DAOCall.CreateUser record]) ∧
    (∀ (f : Faults) (db : DB) (row : User),
      row ∈ (RegisterUser (gormDAO f) bc db user).1.users → row ∉ db.users →
      ∃ h, bc.GenerateFromPassword user.Password DefaultCost = Except.ok h ∧
        row.Password = h ∧ row.Password ≠ user.Password) := by
  constructor
  · intro record hrec
    rcases RegisterUser_cases d bc s user with ⟨_, _, hl⟩ | ⟨_, err, _, _, hl⟩ | ⟨_, h, hg, _, hl⟩
    · rw [hl] at hrec; simp at hrec
    · rw [hl] at hrec; simp at hrec
    · rw [hl] at hrec
      simp only [List.mem_cons, reduceCtorEq, DAOCall.CreateUser.injEq, List.mem_singleton,
        List.not_mem_nil, or_false, false_or] at hrec
      subst hrec
      exact ⟨h, hg, rfl, hone h hg, hl⟩
  · intro f db row hrow hnew
    rcases RegisterUser_cases (gormDAO f) bc db user with ⟨_, he, _⟩ | ⟨_, err, _, he, _⟩ | ⟨_, h, hg, he, _⟩
    · rw [he] at hrow; exact absurd hrow hnew
    · rw [he] at hrow; exact absurd hrow hnew
    · rw [he] at hrow
      rcases CreateUser_rows f db _ row hrow with h1 | ⟨id, h1⟩
      · exact absurd h1 hnew
      · refine ⟨h, hg, by rw [h1], ?_⟩
        rw [h1]
        exact hone h hg

/-- Claim C4 at the registration of `alice` with password `secret`. -/
theorem RegisterUser_hands_hash_witness :
    ∃ h, toyBcrypt.GenerateFromPassword "secret" DefaultCost = Except.ok h ∧
      ({ ID := 0, Username := "alice", Email := "a@x.com", Password := "$2a$10$secret",
         DeletedAt := none } : User) =
        { ID := 0, Username := "alice", Email := "a@x.com", Password := h,
          DeletedAt := none } ∧
      "$2a$10$secret" ≠ "secret" ∧
      (RegisterUser (gormDAO Faults.none).traced toyBcrypt
        ({ users := [], nextID := 1 }, [])
        { ID := 0, Username := "alice", Email := "a@x.com", Password := "secret",
          DeletedAt := none }).1.2 =
        [DAOCall.GetUserByUsername "alice",
         DAOCall.CreateUser { ID := 0, Username := "alice", Email := "a@x.com",
                              Password := "$2a$10$secret", DeletedAt := none }] :=
  (RegisterUser_hands_hash (gormDAO Faults.none) toyBcrypt { users := [], nextID := 1 }
    { ID := 0, Username := "alice", Email := "a@x.com", Password := "secret", DeletedAt := none }
    (by intro h hh; cases hh; decide)).1
    { ID := 0, Username := "alice", Email := "a@x.com", Password := "$2a$10$secret",
      DeletedAt := none } (by decide)

theorem Create_error_origin (fault : Option Error) (db : DB) (value : User) :
    (Create fault db value).2.2 = none ∨ (Create fault db value).2.2 = fault ∨
    ∃ c, (Create fault db value).2.2 = some (Error.duplicateKey c) := by
  unfold Create
  cases fault with
  | some e => right; left; rfl
  | none =>
    simp only
    split_ifs <;> simp

/-- Where an error of `CreateUser` comes from: it is the error of one of its
three statements, the refusal of a delete without a condition, or a violation
of a key of the table. -/
theorem CreateUser_error_origin (f : Faults) (db : DB) (user : User) :
    (CreateUser f db user).2.2 = none ∨
    (CreateUser f db user).2.2 = f.createUserFirst ∨
    (CreateUser f db user).2.2 = f.createUserDelete ∨
    (CreateUser f db user).2.2 = f.createUserCreate ∨
    (CreateUser f db user).2.2 = some Error.ErrMissingWhereClause ∨
    ∃ c, (CreateUser f db user).2.2 = some (Error.duplicateKey c) := by
  have hcreate : ∀ db1, (Create f.createUserCreate db1 user).2.2 = none ∨
      (Create f.createUserCreate db1 user).2.2 = f.createUserFirst ∨
      (Create f.createUserCreate db1 user).2.2 = f.createUserDelete ∨
      (Create f.createUserCreate db1 user).2.2 = f.createUserCreate ∨
      (Create f.createUserCreate db1 user).2.2 = some Error.ErrMissingWhereClause ∨
      ∃ c, (Create f.createUserCreate db1 user).2.2 = some (Error.duplicateKey c) := by
    intro db1
    rcases Create_error_origin f.createUserCreate db1 user with h | h | h
    · exact Or.inl h
    · exact Or.inr (Or.inr (Or.inr (Or.inl h)))
    · exact Or.inr (Or.inr (Or.inr (Or.inr (Or.inr h))))
  unfold CreateUser
  simp only
  split_ifs with h1 h2
  · rcases DeleteUnscoped_users f.createUserDelete db
      (First f.createUserFirst db true (fun r => r.Username == user.Username)).1
      with ⟨hd, hne⟩ | ⟨hd, _⟩ | ⟨hd, _⟩
    · rw [hd]
      cases hfd : f.createUserDelete with
      | none => exact absurd hfd hne
      | some e => exact Or.inr (Or.inr (Or.inl rfl))
    · rw [hd]
      exact Or.inr (Or.inr (Or.inr (Or.inr (Or.inl rfl))))
    · rw [hd]
      exact hcreate _
  · cases hff : f.createUserFirst with
    | some e => rw [First_fault]; exact Or.inr (Or.inl rfl)
    | none =>
      rw [hff] at h2
      rcases First_cases db true (fun r => r.Username == user.Username) with ⟨h0, _⟩ | ⟨r, h0, _⟩
      · rw [h0] at h2; exact absurd rfl h2
      · rw [h0]; exact Or.inl rfl
  · exact hcreate _

/-- Claim C7, evaluated on the code. The store holds `bob` only, and `alice`
registers without an email. The lookup by username finds no user: it returns a
pointer to a zero-valued user with the not-found error. `RegisterUser` drops
the error, compares the empty email of the input with the empty email of the
zero value and returns `ErrUsernameOrEmailTaken`, although the lookup yielded
no existing user. -/
theorem RegisterUser_taken_without_existing_user :
    FindByUsername Faults.none
      { users := [{ ID := 1, Username := "bob", Email := "b@x.com",
                    Password := "$2a$10$pw", DeletedAt := none }],
        nextID := 2 } "alice" = (some User.zero, some Error.ErrRecordNotFound) ∧
    ({ users := [{ ID := 1, Username := "bob", Email := "b@x.com",
                   Password := "$2a$10$pw", DeletedAt := none }],
       nextID := 2 } : DB).users.filter (fun r => r.Username == "alice") = [] ∧
    RegisterUser (gormDAO Faults.none) toyBcrypt
      { users := [{ ID := 1, Username := "bob", Email := "b@x.com",
                    Password := "$2a$10$pw", DeletedAt := none }],
        nextID := 2 }
      { ID := 0, Username := "alice", Email := "", Password := "secret", DeletedAt := none }
    = ({ users := [{ ID := 1, Username := "bob", Email := "b@x.com",
                     Password := "$2a$10$pw", DeletedAt := none }],
         nextID := 2 },
       { ID := 0, Username := "alice", Email := "", Password := "secret", DeletedAt := none },
       some Error.ErrUsernameOrEmailTaken) := by
  decide

/-- The taken check of `RegisterUser` in terms of the record the lookup returns.
With collaborators that do not themselves return the taken error
(the hashing library and the data-access layer cannot name a sentinel of the
service), `RegisterUser` returns `ErrUsernameOrEmailTaken` exactly when the
lookup by username returns a non-nil record, whatever its error, whose email
is the email of the input; on a miss of `FindByUsername` that record is the
zero value, not a user of the store. When
it does, the only call through the interface is the lookup, the state is the
one the lookup left (over `GormDAO`, the store as it was), and the record
comes back with its password as given. A user returned by the lookup with an
other email does not make the method return the taken error. -/
theorem RegisterUser_taken_iff {σ : Type} (d : MusicDAO σ) (bc : Bcrypt) (s : σ) (user : User)
    (hbc : bc.GenerateFromPassword user.Password DefaultCost ≠
      Except.error Error.ErrUsernameOrEmailTaken)
    (hd : ∀ s1 u, (d.CreateUser s1 u).2.2 ≠ some Error.ErrUsernameOrEmailTaken) :
    ((RegisterUser d bc s user).2.2 = some Error.ErrUsernameOrEmailTaken ↔
      ∃ existing, (d.GetUserByUsername s user.Username).2.1 = some existing ∧
        user.Email = existing.Email) ∧
    ((∃ existing, (d.GetUserByUsername s user.Username).2.1 = some existing ∧
        user.Email = existing.Email) →
      RegisterUser d bc s user =
        ((d.GetUserByUsername s user.Username).1, user, some Error.ErrUsernameOrEmailTaken) ∧
      (RegisterUser d.traced bc (s, []) user).1.2 =
        [DAOCall.GetUserByUsername user.Username]) ∧
    (∀ existing, (d.GetUserByUsername s user.Username).2.1 = some existing →
      user.Email ≠ existing.Email →
      (RegisterUser d bc s user).2.2 ≠ some Error.ErrUsernameOrEmailTaken) ∧
    (∀ (f : Faults) (db : DB),
      (∃ existing, (FindByUsername f db user.Username).1 = some existing ∧
        user.Email = existing.Email) →
      RegisterUser (gormDAO f) bc db user = (db, user, some Error.ErrUsernameOrEmailTaken)) := by
  have hiff : (RegisterUser d bc s user).2.2 = some Error.ErrUsernameOrEmailTaken ↔
      ∃ existing, (d.GetUserByUsername s user.Username).2.1 = some existing ∧
        user.Email = existing.Email := by
    rcases RegisterUser_cases d bc s user with ⟨ht, he, _⟩ | ⟨ht, err, hg, he, _⟩ | ⟨ht, h, _, he, _⟩
    · rw [he]; simp only [true_iff]; exact ht
    · rw [he]
      simp only [Option.some.injEq, ht, iff_false]
      intro herr
      exact hbc (by rw [hg, herr])
    · rw [he]
      simp only [ht, iff_false]
      exact hd _ _
  refine ⟨hiff, ?_, ?_, ?_⟩
  · intro ht
    rcases RegisterUser_cases d bc s user with ⟨_, he, hl⟩ | ⟨hn, _⟩ | ⟨hn, _⟩
    · exact ⟨he, hl⟩
    · exact absurd ht hn
    · exact absurd ht hn
  · intro existing hex hne ht
    obtain ⟨e2, h2, h3⟩ := hiff.1 ht
    rw [hex] at h2
    cases h2
    exact hne h3
  · intro f db ht
    rcases RegisterUser_cases (gormDAO f) bc db user with ⟨_, he, _⟩ | ⟨hn, _⟩ | ⟨hn, _⟩
    · exact he
    · exact absurd ht hn
    · exact absurd ht hn

/-- The taken check at a store with `alice`: registering `alice` again gives the taken
error with her email and does not give it with an other email. -/
theorem RegisterUser_taken_iff_witness :
    RegisterUser (gormDAO Faults.none) toyBcrypt
      { users := [{ ID := 1, Username := "alice", Email := "a@x.com",
                    Password := "$2a$10$secret", DeletedAt := none }],
        nextID := 2 }
      { ID := 0, Username := "alice", Email := "a@x.com", Password := "pw", DeletedAt := none }
    = ({ users := [{ ID := 1, Username := "alice", Email := "a@x.com",
                     Password := "$2a$10$secret", DeletedAt := none }],
         nextID := 2 },
       { ID := 0, Username := "alice", Email := "a@x.com", Password := "pw", DeletedAt := none },
       some Error.ErrUsernameOrEmailTaken) :=
  (RegisterUser_taken_iff (gormDAO Faults.none) toyBcrypt
    { users := [{ ID := 1, Username := "alice", Email := "a@x.com",
                  Password := "$2a$10$secret", DeletedAt := none }],
      nextID := 2 }
    { ID := 0, Username := "alice", Email := "a@x.com", Password := "pw", DeletedAt := none }
    (by intro h; cases h)
    (by
      intro s1 u h
      have h2 : (CreateUser Faults.none s1 u).2.2 = some Error.ErrUsernameOrEmailTaken := h
      rcases CreateUser_error_origin Faults.none s1 u with h3 | h3 | h3 | h3 | h3 | ⟨c, h3⟩ <;>
        rw [h3] at h2 <;> cases h2)).2.2.2 Faults.none
    { users := [{ ID := 1, Username := "alice", Email := "a@x.com",
                  Password := "$2a$10$secret", DeletedAt := none }],
      nextID := 2 }
    (by decide)

/-- Claim C8, refuted on the code. The lookup by username fails with an error
of the store that is not the not-found error; `RegisterUser` does not return
that error: it goes on, creates the user and returns nil. -/
theorem RegisterUser_lookup_error_not_returned :
    (FindByUsername
      { createUserFirst := none, createUserDelete := none, createUserCreate := none,
        updateUserFirst := none, updateUserSave := none,
        findByUsernameFirst := some (Error.store "connection refused") }
      { users := [], nextID := 1 } "alice").2 = some (Error.store "connection refused") ∧
    RegisterUser
      (gormDAO
        { createUserFirst := none, createUserDelete := none, createUserCreate := none,
          updateUserFirst := none, updateUserSave := none,
          findByUsernameFirst := some (Error.store "connection refused") })
      toyBcrypt { users := [], nextID := 1 }
      { ID := 0, Username := "alice", Email := "a@x.com", Password := "secret",
        DeletedAt := none }
    = ({ users := [{ ID := 1, Username := "alice", Email := "a@x.com",
                     Password := "$2a$10$secret", DeletedAt := none }],
         nextID := 2 },
       { ID := 1, Username := "alice", Email := "a@x.com", Password := "$2a$10$secret",
         DeletedAt := none },
       none) := by
  decide

/-- Claim C8, amended. `RegisterUser` discards the error of the lookup by
username: its result is the same whatever that error is. Past the taken
check, an error of hashing is returned as it is, with no call of `CreateUser`
and the record untouched, and the result of `CreateUser`, its error included,
is returned as it is. -/
theorem RegisterUser_error_propagation {σ : Type} (d : MusicDAO σ) (bc : Bcrypt) (s : σ)
    (user : User) :
    (∀ e, RegisterUser (d.withLookupError e) bc s user = RegisterUser d bc s user) ∧
    (∀ err,
      (¬ ∃ existing, (d.GetUserByUsername s user.Username).2.1 = some existing ∧
        user.Email = existing.Email) →
      bc.GenerateFromPassword user.Password DefaultCost = Except.error err →
      RegisterUser d bc s user = ((d.GetUserByUsername s user.Username).1, user, some err) ∧
      (RegisterUser d.traced bc (s, []) user).1.2 =
        [DAOCall.GetUserByUsername user.Username]) ∧
    (∀ h,
      (¬ ∃ existing, (d.GetUserByUsername s user.Username).2.1 = some existing ∧
        user.Email = existing.Email) →
      bc.GenerateFromPassword user.Password DefaultCost = Except.ok h →
      RegisterUser d bc s user =
        d.CreateUser (d.GetUserByUsername s user.Username).1 { user with Password := h }) := by
  refine ⟨fun e => rfl, ?_, ?_⟩
  · intro err hn hg
    rcases RegisterUser_cases d bc s user with ⟨ht, _⟩ | ⟨_, err2, hg2, he, hl⟩ | ⟨_, h, hg2, _⟩
    · exact absurd ht hn
    · rw [hg] at hg2
      cases hg2
      exact ⟨he, hl⟩
    · rw [hg] at hg2
      cases hg2
  · intro h hn hg
    rcases RegisterUser_cases d bc s user with ⟨ht, _⟩ | ⟨_, err2, hg2, _⟩ | ⟨_, h2, hg2, he, _⟩
    · exact absurd ht hn
    · rw [hg] at hg2
      cases hg2
    · rw [hg] at hg2
      cases hg2
      exact he

/-- Claim C8 as amended, at a registration whose insert the store cuts short:
the error of `CreateUser` is the error of `RegisterUser`. -/
theorem RegisterUser_error_propagation_witness :
    RegisterUser
      (gormDAO
        { createUserFirst := none, createUserDelete := none,
          createUserCreate := some (Error.store "connection reset"),
          updateUserFirst := none, updateUserSave := none, findByUsernameFirst := none })
      toyBcrypt { users := [], nextID := 1 }
      { ID := 0, Username := "alice", Email := "a@x.com", Password := "secret",
        DeletedAt := none }
    = ({ users := [], nextID := 1 },
       { ID := 0, Username := "alice", Email := "a@x.com", Password := "$2a$10$secret",
         DeletedAt := none },
       some (Error.store "connection reset")) :=
  ((RegisterUser_error_propagation
    (gormDAO
      { createUserFirst := none, createUserDelete := none,
        createUserCreate := some (Error.store "connection reset"),
        updateUserFirst := none, updateUserSave := none, findByUsernameFirst := none })
    toyBcrypt { users := [], nextID := 1 }
    { ID := 0, Username := "alice", Email := "a@x.com", Password := "secret",
      DeletedAt := none }).2.2 "$2a$10$secret"
    (by
      rintro ⟨existing, h1, h2⟩
      have hl : ((gormDAO
          { createUserFirst := none, createUserDelete := none,
            createUserCreate := some (Error.store "connection reset"),
            updateUserFirst := none, updateUserSave := none,
            findByUsernameFirst := none }).GetUserByUsername
          { users := [], nextID := 1 } "alice").2.1 = some User.zero := by decide
      have h3 : some User.zero = some existing := hl.symm.trans h1
      cases h3
      revert h2
      decide)
    rfl).trans (by decide)

/-- Claim C10. When no active row carries the username of the input and the
lookup executes, `FindByUsername` returns a pointer to a zero-valued user with
the not-found error. Then an input with the empty email gets
`ErrUsernameOrEmailTaken`, with the store untouched and no call of
`CreateUser`, although nobody holds the username; an input with a non-empty
email passes the taken check, and `RegisterUser` returns the error of hashing
or hands the record with the hash to `CreateUser` and returns its result. -/
theorem RegisterUser_rejects_unheld_username (f : Faults) (db : DB) (bc : Bcrypt) (user : User)
    (hf : f.findByUsernameFirst = none)
    (hmiss : ∀ r ∈ db.users, ¬ (r.Username = user.Username ∧ r.active = true)) :
    FindByUsername f db user.Username = (some User.zero, some Error.ErrRecordNotFound) ∧
    (user.Email = "" →
      RegisterUser (gormDAO f) bc db user = (db, user, some Error.ErrUsernameOrEmailTaken) ∧
      (RegisterUser (gormDAO f).traced bc (db, []) user).1.2 =
        [DAOCall.GetUserByUsername user.Username]) ∧
    (user.Email ≠ "" →
      (∃ err, bc.GenerateFromPassword user.Password DefaultCost = Except.error err ∧
        RegisterUser (gormDAO f) bc db user = (db, user, some err)) ∨
      (∃ h, bc.GenerateFromPassword user.Password DefaultCost = Except.ok h ∧
        RegisterUser (gormDAO f) bc db user = CreateUser f db { user with Password := h } ∧
        (RegisterUser (gormDAO f).traced bc (db, []) user).1.2 =
          [DAOCall.GetUserByUsername user.Username,
           DAOCall.CreateUser { user with Password := h }])) := by
  have hfind : FindByUsername f db user.Username =
      (some User.zero, some Error.ErrRecordNotFound) := by
    rcases FindByUsername_cases f db user.Username hf with ⟨h0, _⟩ | ⟨r, _, hm, hu, ha⟩
    · exact h0
    · exact absurd ⟨hu, ha⟩ (hmiss r hm)
  have hlook : ((gormDAO f).GetUserByUsername db user.Username).2.1 = some User.zero := by
    show (FindByUsername f db user.Username).1 = some User.zero
    rw [hfind]
  refine ⟨hfind, ?_, ?_⟩
  · intro he
    have ht : ∃ existing, ((gormDAO f).GetUserByUsername db user.Username).2.1 = some existing ∧
        user.Email = existing.Email := ⟨User.zero, hlook, he⟩
    rcases RegisterUser_cases (gormDAO f) bc db user with ⟨_, h1, h2⟩ | ⟨hn, _⟩ | ⟨hn, _⟩
    · exact ⟨h1, h2⟩
    · exact absurd ht hn
    · exact absurd ht hn
  · intro he
    have hn : ¬ ∃ existing, ((gormDAO f).GetUserByUsername db user.Username).2.1 = some existing ∧
        user.Email = existing.Email := by
      rintro ⟨existing, h1, h2⟩
      rw [hlook] at h1
      cases h1
      exact he h2
    rcases RegisterUser_cases (gormDAO f) bc db user with ⟨ht, _⟩ | ⟨_, err, hg, h1, _⟩ | ⟨_, h, hg, h1, h2⟩
    · exact absurd ht hn
    · exact Or.inl ⟨err, hg, h1⟩
    · exact Or.inr ⟨h, hg, h1, h2⟩

/-- Claim C10 at the empty store: `alice` without an email is told that the
username or email is taken. -/
theorem RegisterUser_rejects_unheld_username_witness :
    RegisterUser (gormDAO Faults.none) toyBcrypt { users := [], nextID := 1 }
      { ID := 0, Username := "alice", Email := "", Password := "secret", DeletedAt := none }
    = ({ users := [], nextID := 1 },
       { ID := 0, Username := "alice", Email := "", Password := "secret", DeletedAt := none },
       some Error.ErrUsernameOrEmailTaken) :=
  ((RegisterUser_rejects_unheld_username Faults.none { users := [], nextID := 1 } toyBcrypt
    { ID := 0, Username := "alice", Email := "", Password := "secret", DeletedAt := none }
    rfl (by decide)).2.1 rfl).1

/-! ## Registration followed by validation -/

theorem string_append_left_cancel (a b c : String) : a ++ b = a ++ c ↔ b = c := by
  constructor
  · intro h
    have h2 := congrArg String.data h
    simp only [String.data_append, List.append_cancel_left_eq] at h2
    exact String.ext h2
  · intro h
    rw [h]

/-- The comparison of `toyBcrypt` accepts exactly the password that was
hashed. -/
theorem toyBcrypt_compare (p h : String)
    (hg : toyBcrypt.GenerateFromPassword p DefaultCost = Except.ok h) (q : String) :
    toyBcrypt.CompareHashAndPassword h q = none ↔ q = p := by
  have hh : h = "$2a$10$" ++ p := by
    simp only [toyBcrypt, Except.ok.injEq] at hg
    exact hg.symm
  subst hh
  simp only [toyBcrypt, string_append_left_cancel]
  constructor
  · intro h1
    by_contra hne
    rw [if_neg (fun h2 => hne h2.symm)] at h1
    cases h1
  · intro h1
    rw [if_pos h1.symm]

/-- What `ValidateUser` returns when the lookup returns a user without error. -/
theorem ValidateUser_found {σ : Type} (d : MusicDAO σ) (bc : Bcrypt) (s : σ)
    (username password : String) (user : User)
    (hl : (d.GetUserByUsername s username).2 = (some user, none)) :
    (ValidateUser d bc s username password).2 =
      if bc.CompareHashAndPassword user.Password password = none then (user.ID, true)
      else (0, false) := by
  unfold ValidateUser
  rcases hr : d.GetUserByUsername s username with ⟨s1, ou, oe⟩
  rw [hr] at hl
  cases hl
  cases hc : bc.CompareHashAndPassword user.Password password with
  | none => simp [hc]
  | some e => simp [hc]

/-- A successful `CreateUser` on a store without a row of the username of the
record appends the record under its identifier. -/
theorem CreateUser_fresh (f : Faults) (db : DB) (user : User)
    (hfresh : ∀ r ∈ db.users, r.Username ≠ user.Username)
    (hok : (CreateUser f db user).2.2 = none) :
    CreateUser f db user =
      ({ users := db.users ++ [{ user with ID := if user.ID = 0 then db.nextID else user.ID }],
         nextID := max db.nextID ((if user.ID = 0 then db.nextID else user.ID) + 1) },
       { user with ID := if user.ID = 0 then db.nextID else user.ID }, none) := by
  have hcreate : CreateUser f db user = Create f.createUserCreate db user := by
    unfold CreateUser at hok ⊢
    simp only at hok ⊢
    cases hff : f.createUserFirst with
    | some e0 =>
      rw [hff] at hok
      rw [First_fault] at hok ⊢
      simp only [reduceCtorEq, false_and, if_false] at hok ⊢
      by_cases he : some e0 = some Error.ErrRecordNotFound
      · simp only [he, ne_eq, not_true_eq_false, if_false]
      · simp only [ne_eq, he, not_false_eq_true, if_true] at hok
        cases hok
    | none =>
      rcases First_cases db true (fun r => r.Username == user.Username) with ⟨h0, _⟩ | ⟨r, _, hm, hc, _⟩
      · rw [h0]
        simp
      · exact absurd (by simpa using hc) (hfresh r hm)
  rw [hcreate] at hok ⊢
  rcases Create_users f.createUserCreate db user with ⟨_, _, hne⟩ | ⟨_, _, heq⟩
  · exact absurd hok hne
  · exact heq

/-- After the insert of an active row with a username that no other row
carries, the lookup by username returns that row. -/
theorem FindByUsername_appended (f : Faults) (db : DB) (row : User) (n : Nat)
    (hf : f.findByUsernameFirst = none)
    (hfresh : ∀ r ∈ db.users, r.Username ≠ row.Username) (hact : row.DeletedAt = none) :
    FindByUsername f { users := db.users ++ [row], nextID := n } row.Username =
      (some row, none) := by
  unfold FindByUsername First
  rw [hf]
  have hfil : (db.users ++ [row]).filter
      (fun r => (r.Username == row.Username) && scope false r) = [row] := by
    rw [List.filter_append]
    have h1 : db.users.filter (fun r => (r.Username == row.Username) && scope false r) = [] := by
      rw [List.filter_eq_nil_iff]
      intro x hx
      simp [hfresh x hx]
    rw [h1]
    simp [scope, User.active, hact]
  simp only [hfil]
  rfl

/-- Claim C5. Registration followed by validation, over `GormDAO`. On a store
without a row of username `u`, after `RegisterUser` of the user with username
`u`, email `e` and password `p` has returned nil, and with a hash comparison
that accepts against the hash of `p` exactly the password `p`, a
`ValidateUser` whose lookup executes returns the identifier of the created
user and `true` for `(u, p)`, and `(0, false)` for `(u, q)` with any `q` other
than `p`. The created user is the record that `RegisterUser` left behind its
argument; it is a row of the store. -/
theorem register_then_validate (f fv : Faults) (db : DB) (bc : Bcrypt) (u e p : String)
    (hfresh : ∀ r ∈ db.users, r.Username ≠ u)
    (hcmp : ∀ h, bc.GenerateFromPassword p DefaultCost = Except.ok h →
      ∀ q, bc.CompareHashAndPassword h q = none ↔ q = p)
    (hfv : fv.findByUsernameFirst = none)
    (hok : (RegisterUser (gormDAO f) bc db
      { ID := 0, Username := u, Email := e, Password := p, DeletedAt := none }).2.2 = none) :
    (ValidateUser (gormDAO fv) bc
        (RegisterUser (gormDAO f) bc db
          { ID := 0, Username := u, Email := e, Password := p, DeletedAt := none }).1 u p).2 =
      ((RegisterUser (gormDAO f) bc db
          { ID := 0, Username := u, Email := e, Password := p, DeletedAt := none }).2.1.ID,
        true) ∧
    (∀ q, q ≠ p →
      (ValidateUser (gormDAO fv) bc
        (RegisterUser (gormDAO f) bc db
          { ID := 0, Username := u, Email := e, Password := p, DeletedAt := none }).1 u q).2 =
      (0, false)) ∧
    (RegisterUser (gormDAO f) bc db
        { ID := 0, Username := u, Email := e, Password := p, DeletedAt := none }).2.1 ∈
      (RegisterUser (gormDAO f) bc db
        { ID := 0, Username := u, Email := e, Password := p, DeletedAt := none }).1.users ∧
    (RegisterUser (gormDAO f) bc db
        { ID := 0, Username := u, Email := e, Password := p, DeletedAt := none }).2.1.Username =
      u := by
  rcases RegisterUser_cases (gormDAO f) bc db
      { ID := 0, Username := u, Email := e, Password := p, DeletedAt := none }
    with ⟨_, he, _⟩ | ⟨_, err, _, he, _⟩ | ⟨_, h, hg, he, _⟩
  · rw [he] at hok; cases hok
  · rw [he] at hok; cases hok
  · have hcu : RegisterUser (gormDAO f) bc db
        { ID := 0, Username := u, Email := e, Password := p, DeletedAt := none } =
        CreateUser f db { ID := 0, Username := u, Email := e, Password := h,
                          DeletedAt := none } := he
    rw [hcu] at hok ⊢
    have hins := CreateUser_fresh f db
      { ID := 0, Username := u, Email := e, Password := h, DeletedAt := none } hfresh hok
    simp only [if_true] at hins
    rw [hins]
    have hfind := FindByUsername_appended fv db
      { ID := db.nextID, Username := u, Email := e, Password := h, DeletedAt := none }
      (max db.nextID (db.nextID + 1)) hfv hfresh rfl
    have hl : ((gormDAO fv).GetUserByUsername
        { users := db.users ++
            [{ ID := db.nextID, Username := u, Email := e, Password := h, DeletedAt := none }],
          nextID := max db.nextID (db.nextID + 1) } u).2 =
        (some { ID := db.nextID, Username := u, Email := e, Password := h, DeletedAt := none },
          none) := hfind
    refine ⟨?_, ?_, ?_, rfl⟩
    · rw [ValidateUser_found _ bc _ u p _ hl]
      rw [if_pos ((hcmp h hg p).2 rfl)]
    · intro q hq
      rw [ValidateUser_found _ bc _ u q _ hl]
      rw [if_neg (fun hc => hq ((hcmp h hg q).1 hc))]
    · simp

/-- Claim C5 at the example of the spec: `alice` registers with the password
`secret` on an empty store; `secret` then validates with her identifier and
`wrong` does not. -/
theorem register_then_validate_witness :
    (ValidateUser (gormDAO Faults.none) toyBcrypt
        (RegisterUser (gormDAO Faults.none) toyBcrypt { users := [], nextID := 1 }
          { ID := 0, Username := "alice", Email := "a@x.com", Password := "secret",
            DeletedAt := none }).1 "alice" "secret").2 = (1, true) ∧
    (ValidateUser (gormDAO Faults.none) toyBcrypt
        (RegisterUser (gormDAO Faults.none) toyBcrypt { users := [], nextID := 1 }
          { ID := 0, Username := "alice", Email := "a@x.com", Password := "secret",
            DeletedAt := none }).1 "alice" "wrong").2 = (0, false) :=
  ⟨(register_then_validate Faults.none Faults.none { users := [], nextID := 1 } toyBcrypt
      "alice" "a@x.com" "secret" (by decide) (toyBcrypt_compare "secret") rfl
      (by decide)).1.trans (by decide),
   (register_then_validate Faults.none Faults.none { users := [], nextID := 1 } toyBcrypt
      "alice" "a@x.com" "secret" (by decide) (toyBcrypt_compare "secret") rfl
      (by decide)).2.1 "wrong" (by decide)⟩

end GoMusic
